import Mathlib

/-!
Verification of the Kademlia routing-table core (`src/routing_table.go`).

The Go source is shallowly embedded below.  Identifiers are 160-bit SHA-1
values, modelled as `Nat`; `net.TCPAddr` values are opaque here and modelled
as `Nat` (the code only ever stores and returns them).  Go's `container/list`
lists are modelled as Lean `List`s whose head is the Go list's front.
Go panics (nil-pointer dereference, slice index out of range) are modelled by
`Option`/explicit result constructors: a `none`/`panicked` result means the Go
code panics at that point.

Symbols called by `routing_table.go` but defined elsewhere in the repository
(`distanceBetween`, `Node.GetKBucketFromID`, `Node.GetKBucketFromAddr`, the
package-level constant `k`) are not under `src/`; they are modelled from the
spec and marked as such in their doc comments.
-/

set_option maxRecDepth 100000

namespace Kademlia

/-- `Contact` from the source: an identifier (`big.Int`, a 160-bit SHA-1
value, modelled as `Nat`) together with a network address (modelled as an
opaque `Nat`; the routing table only stores and returns it). -/
structure Contact where
  id : Nat
  addr : Nat
deriving DecidableEq, Repr

/-- The zero value of Go's `Contact` struct: a zero `big.Int` identifier and
a zero `net.TCPAddr`.  `getAllContacts` pads its fixed-size result array with
this value. -/
def zeroContact : Contact := { id := 0, addr := 0 }

/-- `AreEqualContacts` from the source: two contacts are equal iff their
identifiers compare equal (`a.Id.Cmp(&b.Id) == 0`); the address does not
participate. -/
def AreEqualContacts (a b : Contact) : Bool := a.id == b.id

/-- Modelled from the spec: the protocol-wide replication parameter `k`
(canonically 20) is a package-level constant not under `src/`; the source
hard-codes `NewKBucket(20)` at its only bucket-creation site. -/
def k : Nat := 20

/-- Modelled from the spec: `distanceBetween` is not under `src/`; §4.1 of
the spec defines `distance(a, b)` as the bitwise XOR of the two fixed-width
identifiers. -/
def distanceBetween (a b : Nat) : Nat := Nat.xor a b

/-- Fuel-bounded floor of the base-2 logarithm (the position of the highest
set bit); structural recursion so that concrete evaluations reduce in the
kernel.  Fuel 160 is exact for every 160-bit identifier distance. -/
def log2floor : Nat → Nat → Nat
  | 0, _ => 0
  | fuel + 1, n => if n < 2 then 0 else log2floor fuel (n / 2) + 1

/-- Modelled from the spec: `Node.GetKBucketFromID` is not under `src/`.
Per §3, bucket `i` holds the peers whose XOR distance from the owner has its
highest set bit at position `i` (counting from the least-significant bit:
"all peers sharing exactly `B-1-i` leading bits with the owner"); per §4.3
a lookup target equal to the owner id starts from the bucket that would hold
the farthest-possible peers, which under this indexing is bucket 159. -/
def GetKBucketFromID (ownerId id : Nat) : Nat :=
  if id = ownerId then 159 else log2floor 160 (distanceBetween ownerId id)

/-- `KBucket` from the source: the recency-ordered contact list (Go list
front = Lean list head), the capacity field `k`, and the replacement cache
`lruCache` ("not implemented yet" in the source). -/
structure KBucket where
  contacts : List Contact
  k : Nat
  lruCache : List Contact
deriving DecidableEq, Repr

/-- `NewKBucket` from the source: fresh empty contact list and replacement
cache, capacity `k`. -/
def NewKBucket (k : Nat) : KBucket := { contacts := [], k := k, lruCache := [] }

/-- `RoutingTable` from the source: the owner's identifier (the embedded
`owner *Node` back-reference is used only for its id, its logger and its
bucket-index helpers), the 160 lazily allocated bucket slots (`nil` slot =
`none`) and the never-updated `numNeighbors` counter.  The mutex is not part
of the sequential state. -/
structure RoutingTable where
  owner : Nat
  kBuckets : List (Option KBucket)
  numNeighbors : Nat
deriving DecidableEq, Repr

/-- `NewRoutingTable` from the source: 160 nil bucket slots, zero neighbor
count. -/
def NewRoutingTable (owner : Nat) : RoutingTable :=
  { owner := owner, kBuckets := List.replicate 160 none, numNeighbors := 0 }

/-- `getFromList` from the source: scan the bucket front-to-back and return
the first element whose identifier equals the probe's (`AreEqualContacts`);
`none` when absent. -/
def getFromList (b : KBucket) (contact : Contact) : Option Contact :=
  b.contacts.find? (fun curr => AreEqualContacts curr contact)

/-- `getAllContacts` from the source: the Go code writes the bucket's
contacts front-to-back into a fixed `make([]Contact, 20)` array and returns
the whole array, so the result always has exactly 20 entries, the unused
tail being zero-valued contacts.  A bucket holding more than 20 contacts
would make the Go code panic with an index-out-of-range (`none` here). -/
def getAllContacts (b : KBucket) : Option (List Contact) :=
  if b.contacts.length ≤ 20 then
    some (b.contacts ++ List.replicate (20 - b.contacts.length) zeroContact)
  else none

/-- `addContact` from the source: if a contact with the same identifier is
already present, move that stored element (with its stored address — the
argument's address is never copied) to the front and return `true`; else if
the bucket is not full, push the new contact at the front and return `true`;
else return `false` (the full-bucket eviction and replacement-cache code is
commented out behind a TODO). -/
def addContact (b : KBucket) (contact : Contact) : KBucket × Bool :=
  match getFromList b contact with
  | some e =>
    ({ b with contacts := e :: b.contacts.eraseP (fun x => AreEqualContacts x contact) }, true)
  | none =>
    if b.contacts.length < b.k then
      ({ b with contacts := contact :: b.contacts }, true)
    else
      (b, false)

/-- `removeContact` from the source: remove the first element whose
identifier equals the argument's, reporting whether one was present. -/
def removeContact (b : KBucket) (contact : Contact) : KBucket × Bool :=
  match getFromList b contact with
  | some _ =>
    ({ b with contacts := b.contacts.eraseP (fun x => AreEqualContacts x contact) }, true)
  | none => (b, false)

/-- `add` from the source: route the contact to its bucket index, lazily
creating the bucket (`NewKBucket(20)`), and delegate to `addContact`, whose
boolean outcome is discarded ("TODO: handle failure to add").  The source
routes through `Node.GetKBucketFromAddr(contact.Addr)`, which is not under
`src/`; modelled from the spec (§4.3: `idx = bucketIndex(ownerID,
contact.id)`, identifiers being derived from addresses by a fixed hash), it
routes by the contact's identifier, and per §4.3/§7 an insertion of the
owner's own identifier is silently ignored.  An index outside the bucket
array (impossible for 160-bit identifiers) would be a Go slice panic,
modelled as `none`. -/
def add (rt : RoutingTable) (contact : Contact) : Option RoutingTable :=
  if contact.id = rt.owner then some rt
  else
    match rt.kBuckets[GetKBucketFromID rt.owner contact.id]? with
    | none => none
    | some ob =>
      some { rt with
             kBuckets := rt.kBuckets.set (GetKBucketFromID rt.owner contact.id)
               (some (addContact (ob.getD (NewKBucket 20)) contact).1) }

/-- `remove` from the source: route the contact to its bucket index (again
via the spec-modelled routing, see `add`) and call `removeContact` on the
bucket pointer **without a nil check**: when the slot is still nil the Go
code dereferences a nil `*KBucket` and panics (`none` here). -/
def remove (rt : RoutingTable) (contact : Contact) : Option RoutingTable :=
  match rt.kBuckets[GetKBucketFromID rt.owner contact.id]? with
  | none => none
  | some none => none
  | some (some b) =>
    some { rt with
           kBuckets := rt.kBuckets.set (GetKBucketFromID rt.owner contact.id)
             (some (removeContact b contact).1) }

/-- `ContactFromID` from the source: route the identifier to its bucket
index; a nil bucket slot is explicitly checked and reported as not-found
(`some none`); otherwise scan the bucket with a probe contact carrying the
identifier and a zero address.  The outer `Option` is the panic layer (an
out-of-range index, impossible for 160-bit identifiers); the inner `Option`
is the function's own found/not-found result. -/
def ContactFromID (rt : RoutingTable) (id : Nat) : Option (Option Contact) :=
  match rt.kBuckets[GetKBucketFromID rt.owner id]? with
  | none => none
  | some none => some none
  | some (some b) => some (getFromList b { id := id, addr := 0 })

/-- Result of one of `findKNearestContacts`'s bucket-expansion loops:
a normal exit carrying the accumulated slice and the current value of the
`index` variable (the leftward loop's post-statement mutates `index`, and the
rightward loop's start depends on it), a Go panic, or fuel exhaustion
(standing for an infinite loop, which the theorems below rule out). -/
inductive ScanRes where
  | ok : List Contact → Int → ScanRes
  | panicked : ScanRes
  | exhausted : ScanRes
deriving DecidableEq, Repr

/-- Result of `findKNearestContacts`: the returned slice, a Go panic, or
fuel exhaustion of one of the loops. -/
inductive KNRes where
  | ok : List Contact → KNRes
  | panicked : KNRes
  | exhausted : KNRes
deriving DecidableEq, Repr

/-- Go slice read `self.kBuckets[i]` followed by a method call on the
`*KBucket`: `none` when the index is out of range (slice panic) or the slot
is nil (nil-dereference panic in the called method). -/
def bucketAt (rt : RoutingTable) (i : Int) : Option KBucket :=
  match i with
  | Int.negSucc _ => none
  | Int.ofNat n =>
    match rt.kBuckets[n]? with
    | none => none
    | some none => none
    | some (some b) => some b

/-- The leftward expansion loop of `findKNearestContacts`:
`for curr := index - 1; curr > 0; index--`.  The source decrements `index`
(not `curr`) in the post-statement, so `curr` is fixed at its initial value;
the condition `curr > 0` never reaches bucket 0 ("0th bucket never
populated").  Each iteration appends `getAllContacts` of the bucket at
`curr` and breaks (before the post-statement) once the slice holds at least
`k` entries. -/
def leftLoop (rt : RoutingTable) (curr : Int) : Nat → Int → List Contact → ScanRes
  | 0, _, _ => ScanRes.exhausted
  | fuel + 1, index, acc =>
    if 0 < curr then
      match bucketAt rt curr with
      | none => ScanRes.panicked
      | some b =>
        match getAllContacts b with
        | none => ScanRes.panicked
        | some cs =>
          let acc2 := acc ++ cs
          if k ≤ acc2.length then ScanRes.ok acc2 index
          else leftLoop rt curr fuel (index - 1) acc2
    else ScanRes.ok acc index

/-- The rightward expansion loop of `findKNearestContacts`:
`for curr := index + 1; curr < len(self.kBuckets); curr++`, appending each
bucket's `getAllContacts` and breaking once the slice holds at least `k`
entries. -/
def rightLoop (rt : RoutingTable) : Nat → Int → List Contact → ScanRes
  | 0, _, _ => ScanRes.exhausted
  | fuel + 1, curr, acc =>
    if curr < (rt.kBuckets.length : Int) then
      match bucketAt rt curr with
      | none => ScanRes.panicked
      | some b =>
        match getAllContacts b with
        | none => ScanRes.panicked
        | some cs =>
          let acc2 := acc ++ cs
          if k ≤ acc2.length then ScanRes.ok acc2 curr
          else rightLoop rt fuel (curr + 1) acc2
    else ScanRes.ok acc curr

/-- Fuel-bounded base-2 logarithm based rounding of a natural number below
`2^64` to the nearest IEEE-754 double (round half to even), returned as the
exact natural value of that double.  Conversion of a `uint64` to Go's
`float64` keeps the top 53 significant bits and rounds the rest half to
even; comparing two converted values as doubles is the same as comparing
these rounded naturals. -/
def f64round (n : Nat) : Nat :=
  if n < 2 ^ 53 then n
  else
    let e := log2floor 160 n
    let s := e - 52
    let q := n / 2 ^ s
    let r := n % 2 ^ s
    let half := 2 ^ (s - 1)
    if half < r ∨ (r = half ∧ q % 2 = 1) then (q + 1) * 2 ^ s else q * 2 ^ s

/-- The sort key the source actually compares:
`float64(distanceBetween(id, x.Id).Uint64())`.  `big.Int.Uint64` yields the
low 64 bits of the distance (Go's `math/big` behavior when the value does
not fit in a `uint64`), and the `float64` conversion rounds to 53-bit
precision (`f64round`). -/
def narrowedKey (target : Nat) (c : Contact) : Nat :=
  f64round (distanceBetween target c.id % 2 ^ 64)

/-- The comparator closure passed to `sort.Slice`: strict less-than on the
narrowed keys. -/
def sortLess (target : Nat) (a b : Contact) : Bool :=
  decide (narrowedKey target a < narrowedKey target b)

/-- Insert into a list sorted by the strict comparator `less`, after every
element not strictly greater (a stable insertion). -/
def insertBy (less : Contact → Contact → Bool) (c : Contact) : List Contact → List Contact
  | [] => [c]
  | x :: xs => if less c x then c :: x :: xs else x :: insertBy less c xs

/-- Stable insertion sort with the strict comparator `less`.  `sort.Slice`'s
algorithm is unspecified for tied keys; the concrete evaluations below only
use inputs on which every comparison sort agrees (distinct keys, or tied
elements that are identical values). -/
def sortBy (less : Contact → Contact → Bool) : List Contact → List Contact
  | [] => []
  | x :: xs => insertBy less x (sortBy less xs)

/-- `findKNearestContacts` from the source, with explicit loop fuel:
pre-allocate `kNearest := make([]Contact, k)` (k zero contacts), `copy` the
target bucket's `getAllContacts` over it, run the two expansion loops only
if fewer than `k` entries are held, truncate to `kNearest[:k]` (a Go panic
if shorter than `k`), and sort with the narrowed-distance comparator.  The
bucket index comes from `Node.GetKBucketFromID`, modelled from the spec
(see `GetKBucketFromID`). -/
def findKNearestFuel (rt : RoutingTable) (id : Nat) (fuel : Nat) : KNRes :=
  let index : Int := (GetKBucketFromID rt.owner id : Nat)
  match bucketAt rt index with
  | none => KNRes.panicked
  | some b =>
    match getAllContacts b with
    | none => KNRes.panicked
    | some cs =>
      let kNearest := cs.take k ++ List.replicate (k - cs.length) zeroContact
      match (if kNearest.length < k then leftLoop rt (index - 1) fuel index kNearest
             else ScanRes.ok kNearest index) with
      | ScanRes.panicked => KNRes.panicked
      | ScanRes.exhausted => KNRes.exhausted
      | ScanRes.ok kN2 index2 =>
        match (if kN2.length < k then rightLoop rt fuel (index2 + 1) kN2
               else ScanRes.ok kN2 index2) with
        | ScanRes.panicked => KNRes.panicked
        | ScanRes.exhausted => KNRes.exhausted
        | ScanRes.ok kN3 _ =>
          if k ≤ kN3.length then KNRes.ok (sortBy (sortLess id) (kN3.take k))
          else KNRes.panicked

/-- `findKNearestContacts` with enough fuel for the 160 bucket slots (the
theorems below show the fuel is never consumed). -/
def findKNearestContacts (rt : RoutingTable) (id : Nat) : KNRes :=
  findKNearestFuel rt id 160

/-- All contacts stored in the table, front-to-back within each bucket,
buckets in index order; a nil slot contributes nothing. -/
def tableContacts (rt : RoutingTable) : List Contact :=
  rt.kBuckets.foldr (fun ob acc => (ob.elim [] KBucket.contacts) ++ acc) []

/-- Iterate `add` over a list of contacts (left to right); `none` as soon as
one `add` panics. -/
def addAll (rt : RoutingTable) (cs : List Contact) : Option RoutingTable :=
  cs.foldlM add rt

/-- Whether a list is sorted by non-decreasing value of `key` (the spec's
required ordering when `key` is the full-width XOR distance to the target). -/
def nondecBy (key : Contact → Nat) : List Contact → Bool
  | [] => true
  | [_] => true
  | a :: b :: rest => decide (key a ≤ key b) && nondecBy key (b :: rest)

/-- Whether a contact sequence is sorted by non-decreasing full-width
(160-bit magnitude) XOR distance to `target`. -/
def isSortedByDistanceTo (target : Nat) (l : List Contact) : Bool :=
  nondecBy (fun c => distanceBetween target c.id) l

/-- Project a `KNRes` to its returned slice, when the call returned
normally. -/
def knOkList : KNRes → Option (List Contact)
  | KNRes.ok l => some l
  | _ => none

/-- The states of the routing table reachable from construction through
successfully completed `add` and `remove` calls (a call that would panic
produces no successor state). -/
inductive Reachable : RoutingTable → Prop where
  | init (owner : Nat) : Reachable (NewRoutingTable owner)
  | addStep {rt rt' : RoutingTable} {c : Contact} :
      Reachable rt → add rt c = some rt' → Reachable rt'
  | removeStep {rt rt' : RoutingTable} {c : Contact} :
      Reachable rt → remove rt c = some rt' → Reachable rt'

/-- The per-bucket invariant maintained by the table: capacity field 20,
replacement cache untouched (empty), at most 20 contacts, pairwise distinct
identifiers, and every stored contact differs from the owner and routes to
exactly this bucket index. -/
def BucketInv (owner : Nat) (i : Nat) (b : KBucket) : Prop :=
  b.k = 20 ∧ b.lruCache = [] ∧ b.contacts.length ≤ 20 ∧
    (b.contacts.map Contact.id).Nodup ∧
    ∀ c ∈ b.contacts, c.id ≠ owner ∧ GetKBucketFromID owner c.id = i

/-- The whole-table invariant: 160 bucket slots, every allocated bucket
satisfying `BucketInv` at its own index. -/
def Inv (rt : RoutingTable) : Prop :=
  rt.kBuckets.length = 160 ∧
    ∀ i b, rt.kBuckets[i]? = some (some b) → BucketInv rt.owner i b

/-- A fresh table owned by identifier 0, used by the concrete scenarios
below. -/
def rt0 : RoutingTable := NewRoutingTable 0

/-- A contact in bucket 100 of `rt0` (highest set bit of its distance to
owner 0 is bit 100). -/
def cA : Contact := { id := 2 ^ 100 + 1, addr := 5 }

/-- A contact in bucket 99 of `rt0`. -/
def cB : Contact := { id := 2 ^ 99, addr := 6 }

/-- A contact in bucket 100 of `rt0` whose XOR distance to the target
`2^100` is `2^64`: the low 64 bits of that distance are zero, so the
narrowed sort key collapses to 0 although the full-width distance is the
largest in the bucket. -/
def cBig : Contact := { id := 2 ^ 100 + 2 ^ 64, addr := 40 }

/-- Nineteen contacts in bucket 100 of `rt0` at distances 1..19 from the
target `2^100`. -/
def csSmall : List Contact :=
  (List.range 19).map (fun j => { id := 2 ^ 100 + (j + 1), addr := j + 1 })

/-- Twenty contacts that exactly fill bucket 100 of `rt0`: `cBig` plus the
nineteen near contacts. -/
def csC1 : List Contact := cBig :: csSmall

/-- The table obtained by adding the twenty bucket-100 contacts to `rt0`. -/
def rtC1 : RoutingTable := (addAll rt0 csC1).getD rt0

/-- The table obtained by adding only `cA` to `rt0`. -/
def rtC4 : RoutingTable := (add rt0 cA).getD rt0

/-- The table obtained by adding `cA` (bucket 100) and `cB` (bucket 99) to
`rt0`. -/
def rtC5 : RoutingTable := (addAll rt0 [cA, cB]).getD rt0

/-- The bucket that `rtC4` holds at index 100: exactly the contact `cA`. -/
def bC4 : KBucket := { contacts := [cA], k := 20, lruCache := [] }

/-- A bucket already holding a contact with identifier `2^100` at address 1. -/
def bStored : KBucket := { contacts := [{ id := 2 ^ 100, addr := 1 }], k := 20, lruCache := [] }

/-- The table whose bucket 100 is `bStored`, owned by identifier 0. -/
def rtStored : RoutingTable :=
  { owner := 0, kBuckets := (List.replicate 160 none).set 100 (some bStored), numNeighbors := 0 }

/-- A re-sighting of the stored contact: same identifier `2^100`, new
address 2. -/
def cNewAddr : Contact := { id := 2 ^ 100, addr := 2 }

/-- A bucket filled to capacity with the twenty contacts of `csC1` (as laid
out by twenty `addContact` pushes). -/
def bFull : KBucket := { contacts := csC1.reverse, k := 20, lruCache := [] }

/-- A twenty-first contact for bucket 100, not present in `bFull`. -/
def c21 : Contact := { id := 2 ^ 100 + 21, addr := 9 }

/-- Moving the element found by `find?` to the front of the list (the model
of `list.MoveToFront`) permutes the list. -/
theorem find_front_perm {α : Type} (p : α → Bool) :
    ∀ (l : List α) (e : α), l.find? p = some e → List.Perm (e :: l.eraseP p) l := by
  intro l
  induction l with
  | nil => intro e h; simp at h
  | cons x xs ih =>
    intro e h
    by_cases hx : p x
    · rw [List.find?_cons_of_pos _ hx] at h
      injection h with h
      subst h
      rw [List.eraseP_cons_of_pos hx]
    · rw [List.find?_cons_of_neg _ hx] at h
      rw [List.eraseP_cons_of_neg hx]
      exact (List.Perm.swap x e _).trans ((ih e h).cons x)

/-- A `getFromList` miss means no stored contact carries the probe's
identifier. -/
theorem getFromList_none {b : KBucket} {c : Contact} (h : getFromList b c = none) :
    ∀ x ∈ b.contacts, x.id ≠ c.id := by
  intro x hx
  have hfa := List.find?_eq_none.mp h x hx
  simpa [AreEqualContacts] using hfa

/-- `addContact` preserves the per-bucket invariant when the new contact is
not the owner and routes to this bucket's index. -/
theorem bucketInv_addContact {owner i : Nat} {b : KBucket} {c : Contact}
    (hb : BucketInv owner i b) (hc : c.id ≠ owner)
    (hi : GetKBucketFromID owner c.id = i) :
    BucketInv owner i (addContact b c).1 := by
  obtain ⟨hk, hlru, hlen, hnd, hmem⟩ := hb
  unfold addContact
  cases hfind : getFromList b c with
  | some e =>
    have hperm := find_front_perm (fun x => AreEqualContacts x c) b.contacts e hfind
    refine ⟨hk, hlru, ?_, ?_, ?_⟩
    · simpa [hperm.length_eq] using hlen
    · exact ((hperm.map Contact.id).nodup_iff).mpr hnd
    · intro x hx
      exact hmem x (hperm.mem_iff.mp hx)
  | none =>
    by_cases hroom : b.contacts.length < b.k
    · simp only [hroom, if_pos]
      refine ⟨hk, hlru, ?_, ?_, ?_⟩
      · have hlt : b.contacts.length < 20 := hk ▸ hroom
        simp only [List.length_cons]
        omega
      · refine List.nodup_cons.mpr ⟨?_, hnd⟩
        intro hmemid
        obtain ⟨x, hx, hxid⟩ := List.mem_map.mp hmemid
        exact getFromList_none hfind x hx hxid
      · intro x hx
        cases List.mem_cons.mp hx with
        | inl h => subst h; exact ⟨hc, hi⟩
        | inr h => exact hmem x h
    · simp only [hroom, if_neg, ite_false]
      exact ⟨hk, hlru, hlen, hnd, hmem⟩

/-- `removeContact` preserves the per-bucket invariant. -/
theorem bucketInv_removeContact {owner i : Nat} {b : KBucket} {c : Contact}
    (hb : BucketInv owner i b) :
    BucketInv owner i (removeContact b c).1 := by
  obtain ⟨hk, hlru, hlen, hnd, hmem⟩ := hb
  unfold removeContact
  cases hfind : getFromList b c with
  | some e =>
    have hsub : List.Sublist (b.contacts.eraseP (fun x => AreEqualContacts x c)) b.contacts :=
      List.eraseP_sublist _
    refine ⟨hk, hlru, ?_, ?_, ?_⟩
    · exact le_trans hsub.length_le hlen
    · exact (hsub.map Contact.id).nodup hnd
    · intro x hx; exact hmem x (hsub.subset hx)
  | none => exact ⟨hk, hlru, hlen, hnd, hmem⟩

/-- The fresh bucket created by a lazy `add` satisfies the per-bucket
invariant at any index. -/
theorem bucketInv_new (owner i : Nat) : BucketInv owner i (NewKBucket 20) := by
  refine ⟨rfl, rfl, ?_, ?_, ?_⟩ <;> simp [NewKBucket]

/-- A completed `add` preserves the whole-table invariant. -/
theorem inv_add {rt rt' : RoutingTable} {c : Contact}
    (h : Inv rt) (hs : add rt c = some rt') : Inv rt' := by
  unfold add at hs
  by_cases hself : c.id = rt.owner
  · rw [if_pos hself] at hs
    injection hs with hs
    exact hs ▸ h
  · rw [if_neg hself] at hs
    cases hg : rt.kBuckets[GetKBucketFromID rt.owner c.id]? with
    | none => rw [hg] at hs; cases hs
    | some ob =>
      rw [hg] at hs
      injection hs with hs
      subst hs
      have hlt : GetKBucketFromID rt.owner c.id < rt.kBuckets.length :=
        (List.getElem?_eq_some.mp hg).1
      refine ⟨by simpa using h.1, ?_⟩
      intro i b hib
      by_cases hij : i = GetKBucketFromID rt.owner c.id
      · rw [hij, List.getElem?_set_self hlt] at hib
        injection hib with hib
        injection hib with hib
        subst hib
        have hbase : BucketInv rt.owner i (ob.getD (NewKBucket 20)) := by
          cases ob with
          | none => exact bucketInv_new rt.owner i
          | some b0 =>
            refine h.2 i b0 ?_
            rw [hij]
            exact hg
        exact bucketInv_addContact hbase hself hij.symm
      · rw [List.getElem?_set_ne (fun he => hij he.symm)] at hib
        exact h.2 i b hib

/-- A completed `remove` preserves the whole-table invariant. -/
theorem inv_remove {rt rt' : RoutingTable} {c : Contact}
    (h : Inv rt) (hs : remove rt c = some rt') : Inv rt' := by
  unfold remove at hs
  cases hg : rt.kBuckets[GetKBucketFromID rt.owner c.id]? with
  | none => rw [hg] at hs; cases hs
  | some ob =>
    rw [hg] at hs
    cases ob with
    | none => cases hs
    | some b0 =>
      injection hs with hs
      subst hs
      have hlt : GetKBucketFromID rt.owner c.id < rt.kBuckets.length :=
        (List.getElem?_eq_some.mp hg).1
      refine ⟨by simpa using h.1, ?_⟩
      intro i b hib
      by_cases hij : i = GetKBucketFromID rt.owner c.id
      · rw [hij, List.getElem?_set_self hlt] at hib
        injection hib with hib
        injection hib with hib
        subst hib
        refine bucketInv_removeContact (h.2 i b0 ?_)
        rw [hij]
        exact hg
      · rw [List.getElem?_set_ne (fun he => hij he.symm)] at hib
        exact h.2 i b hib

/-- Every reachable routing-table state satisfies the whole-table
invariant. -/
theorem reachable_inv {rt : RoutingTable} (h : Reachable rt) : Inv rt := by
  induction h with
  | init owner =>
    refine ⟨by simp [NewRoutingTable], ?_⟩
    intro i b hib
    rw [NewRoutingTable] at hib
    rw [List.getElem?_replicate] at hib
    split at hib <;> simp_all
  | addStep _ hs ih => exact inv_add ih hs
  | removeStep _ hs ih => exact inv_remove ih hs

/-- `getAllContacts` always returns a 20-entry slice (when it does not
panic): the bucket's contacts padded with zero-valued contacts. -/
theorem getAllContacts_length {b : KBucket} {cs : List Contact}
    (h : getAllContacts b = some cs) : cs.length = 20 := by
  unfold getAllContacts at h
  split at h
  · injection h with h
    subst h
    simp only [List.length_append, List.length_replicate]
    omega
  · cases h

/-- The loop fuel of `findKNearestFuel` is never consumed: the slice copied
from the target bucket already has length `k`, so the guards of both
expansion loops are false and neither loop body ever runs. -/
theorem findKNearestFuel_eq (rt : RoutingTable) (id fuel : Nat) :
    findKNearestFuel rt id fuel = findKNearestContacts rt id := by
  unfold findKNearestContacts findKNearestFuel
  cases hb : bucketAt rt ((GetKBucketFromID rt.owner id : Nat) : Int) with
  | none => simp only [hb]
  | some b =>
    cases hg : getAllContacts b with
    | none => simp only [hb, hg]
    | some cs =>
      have hcs : cs.length = 20 := getAllContacts_length hg
      have hnlt : ¬ ((List.take k cs ++ List.replicate (k - cs.length) zeroContact).length < k) := by
        simp [hcs, k]
      simp only [hb, hg, if_neg hnlt]

/-- The concatenation of all bucket contents is bounded by 20 contacts per
slot. -/
theorem foldr_contacts_bound :
    ∀ (l : List (Option KBucket)),
      (∀ (i : Nat) (b : KBucket), l[i]? = some (some b) → b.contacts.length ≤ 20) →
      (l.foldr (fun ob acc => (ob.elim [] KBucket.contacts) ++ acc) []).length ≤ 20 * l.length := by
  intro l
  induction l with
  | nil => intro _; simp
  | cons ob rest ih =>
    intro h
    have hrest := ih (fun i b hib => h (i + 1) b (by rw [List.getElem?_cons_succ]; exact hib))
    have hhead : (ob.elim [] KBucket.contacts).length ≤ 20 := by
      cases ob with
      | none => simp [Option.elim]
      | some b => simpa [Option.elim] using h 0 b (by simp)
    simp only [List.foldr_cons, List.length_append, List.length_cons]
    omega

/-- The table reached by adding `cA` to the fresh table `rt0`. -/
theorem reachable_rtC4 : Reachable rtC4 :=
  Reachable.addStep (Reachable.init 0) (show add rt0 cA = some rtC4 by decide)

/-- Claim C1: at the 20-contact table `rtC1` and target `2^100`, the slice
returned by `findKNearestContacts` is NOT sorted by non-decreasing
full-width XOR distance (the contact at distance `2^64` is placed first
because its narrowed 64-bit key wraps to 0), while it IS sorted by the
narrowed key the source actually compares — refuting the claim that the
result is ordered by full-width 160-bit magnitude. -/
theorem findKNearest_not_sorted_by_full_width :
    addAll rt0 csC1 = some rtC1 ∧
    (knOkList (findKNearestContacts rtC1 (2 ^ 100))).map (isSortedByDistanceTo (2 ^ 100)) =
      some false ∧
    (knOkList (findKNearestContacts rtC1 (2 ^ 100))).map (nondecBy (narrowedKey (2 ^ 100))) =
      some true := by
  decide

/-- Claim C2 (counterexample): re-adding the stored identifier `2^100` with
the new address 2 completes without eviction (`add` returns the unchanged
table), yet `lookup` still returns the old address 1: the looked-up contact
is not equal in address to the contact that was just added. -/
theorem add_readd_lookup_returns_old_address :
    add rtStored cNewAddr = some rtStored ∧
    cNewAddr.id ≠ rtStored.owner ∧
    ContactFromID rtStored cNewAddr.id = some (some { id := 2 ^ 100, addr := 1 }) ∧
    Contact.addr { id := 2 ^ 100, addr := 1 } ≠ cNewAddr.addr := by
  decide

/-- Claim C2 (amended): for a contact whose identifier differs from the
owner's and is not already stored in its (non-full) target bucket, `add`
completes and a subsequent `ContactFromID` lookup of that identifier
returns a contact equal in id and address to the one added. -/
theorem add_then_lookup_fresh
    (rt : RoutingTable) (c : Contact) (ob : Option KBucket)
    (hself : c.id ≠ rt.owner)
    (hslot : rt.kBuckets[GetKBucketFromID rt.owner c.id]? = some ob)
    (habsent : ∀ x ∈ (ob.getD (NewKBucket 20)).contacts, x.id ≠ c.id)
    (hroom : (ob.getD (NewKBucket 20)).contacts.length < (ob.getD (NewKBucket 20)).k) :
    ∃ rt', add rt c = some rt' ∧ ContactFromID rt' c.id = some (some c) := by
  have hfind : getFromList (ob.getD (NewKBucket 20)) c = none := by
    unfold getFromList
    rw [List.find?_eq_none]
    intro x hx
    simpa [AreEqualContacts] using habsent x hx
  have hcontacts : (addContact (ob.getD (NewKBucket 20)) c).1.contacts =
      c :: (ob.getD (NewKBucket 20)).contacts := by
    unfold addContact
    rw [hfind]
    simp only [hroom, if_pos]
  have hlt : GetKBucketFromID rt.owner c.id < rt.kBuckets.length :=
    (List.getElem?_eq_some.mp hslot).1
  refine ⟨{ rt with
            kBuckets := rt.kBuckets.set (GetKBucketFromID rt.owner c.id)
              (some (addContact (ob.getD (NewKBucket 20)) c).1) }, ?_, ?_⟩
  · unfold add
    rw [if_neg hself]
    simp only [hslot]
  · unfold ContactFromID
    simp only [List.getElem?_set_self hlt]
    unfold getFromList
    rw [hcontacts]
    rw [List.find?_cons_of_pos]
    show AreEqualContacts c { id := c.id, addr := 0 } = true
    simp [AreEqualContacts]

/-- Witness for the amended claim C2 at the fresh table `rt0` and contact
`cA`. -/
theorem add_then_lookup_fresh_witness :
    ∃ rt', add rt0 cA = some rt' ∧ ContactFromID rt' cA.id = some (some cA) :=
  add_then_lookup_fresh rt0 cA none (by decide) (by decide) (by decide) (by decide)

/-- Claim C3: in every table state reachable through `add`/`remove`, every
allocated bucket holds at most 20 contacts, and two stored contacts with
the same identifier are the same contact in the same bucket (no duplicate
identifiers within a bucket or across buckets). -/
theorem buckets_bounded_and_ids_unique
    (rt : RoutingTable) (h : Reachable rt)
    (i j : Nat) (bi bj : KBucket) (ci cj : Contact)
    (hi : rt.kBuckets[i]? = some (some bi)) (hj : rt.kBuckets[j]? = some (some bj))
    (hci : ci ∈ bi.contacts) (hcj : cj ∈ bj.contacts) (hid : ci.id = cj.id) :
    bi.contacts.length ≤ 20 ∧ i = j ∧ ci = cj := by
  have hinv := reachable_inv h
  have hbi := hinv.2 i bi hi
  have hbj := hinv.2 j bj hj
  have hroutei := (hbi.2.2.2.2 ci hci).2
  have hroutej := (hbj.2.2.2.2 cj hcj).2
  have hij : i = j := by rw [← hroutei, ← hroutej, hid]
  subst hij
  rw [hi] at hj
  injection hj with hj
  injection hj with hj
  subst hj
  exact ⟨hbi.2.2.1, rfl, List.inj_on_of_nodup_map hbi.2.2.2.1 hci hcj hid⟩

/-- Witness for claim C3 at the reachable table `rtC4` holding `cA` in
bucket 100. -/
theorem buckets_bounded_and_ids_unique_witness :
    bC4.contacts.length ≤ 20 ∧ 100 = 100 ∧ cA = cA :=
  buckets_bounded_and_ids_unique rtC4 reachable_rtC4 100 100 bC4 bC4 cA cA
    (by decide) (by decide) (by decide) (by decide) rfl

/-- Claim C4: at the one-contact table `rtC4` and target `2^100`,
`findKNearestContacts` returns a 20-entry slice even though the whole table
stores a single contact, and 19 of the entries are the zero-valued padding
contact, which is not stored anywhere in the table — refuting the claim
that only stored contacts are returned and that the length falls short of
`count` only when the table holds fewer contacts. -/
theorem findKNearest_returns_zero_padding :
    add rt0 cA = some rtC4 ∧
    tableContacts rtC4 = [cA] ∧
    findKNearestContacts rtC4 (2 ^ 100) = KNRes.ok (List.replicate 19 zeroContact ++ [cA]) ∧
    zeroContact ∉ tableContacts rtC4 ∧
    (List.replicate 19 zeroContact ++ [cA]).length = 20 := by
  decide

/-- Claim C5: with `cA` in bucket 100 (one contact, fewer than 20) and `cB`
stored in bucket 99, `findKNearestContacts` at target `2^100` (bucket
index 100) never collects `cB`: the leftward expansion the claim describes
does not happen, because the pre-padded slice already counts 20 entries. -/
theorem findKNearest_skips_left_expansion :
    addAll rt0 [cA, cB] = some rtC5 ∧
    GetKBucketFromID 0 (2 ^ 100) = 100 ∧
    GetKBucketFromID 0 cB.id = 99 ∧
    cB ∈ tableContacts rtC5 ∧
    findKNearestContacts rtC5 (2 ^ 100) = KNRes.ok (List.replicate 19 zeroContact ++ [cA]) ∧
    cB ∉ List.replicate 19 zeroContact ++ [cA] := by
  decide

/-- Claim C6: `findKNearestContacts` is insensitive to the loop fuel (even
fuel 0 gives the same result: the expansion loops never iterate, so the
call always terminates after the bounded initial copy and sort), and every
reachable table stores at most `B × k = 160 × 20` contacts, bounding the
work of the bucket scans performed by `add`, `remove` and lookup. -/
theorem operations_bounded :
    (∀ (rt : RoutingTable) (id fuel : Nat),
        findKNearestFuel rt id fuel = findKNearestContacts rt id) ∧
    (∀ rt : RoutingTable, Reachable rt → (tableContacts rt).length ≤ 160 * 20) := by
  constructor
  · exact findKNearestFuel_eq
  · intro rt h
    have hinv := reachable_inv h
    have hbound := foldr_contacts_bound rt.kBuckets (fun i b hib => (hinv.2 i b hib).2.2.1)
    unfold tableContacts
    rw [hinv.1] at hbound
    omega

/-- Witness for claim C6 at the reachable table `rtC4` with fuel 0. -/
theorem operations_bounded_witness :
    findKNearestFuel rtC4 (2 ^ 100) 0 = findKNearestContacts rtC4 (2 ^ 100) ∧
    (tableContacts rtC4).length ≤ 160 * 20 :=
  ⟨operations_bounded.1 rtC4 (2 ^ 100) 0, operations_bounded.2 rtC4 reachable_rtC4⟩

/-- Claim C7: inserting the fresh contact `c21` (not present) into the full
bucket `bFull` (20 contacts) returns `false` and leaves the bucket — and
its still-empty replacement cache — completely unchanged: the contact is
dropped, not pushed onto the replacement cache. -/
theorem full_bucket_insert_drops_contact :
    addContact bFull c21 = (bFull, false) ∧
    bFull.contacts.length = 20 ∧
    getFromList bFull c21 = none ∧
    bFull.lruCache = [] := by
  decide

/-- Claim C8: re-inserting identifier `2^100` with the new address 2 into
the bucket storing it at address 1 returns `true` but keeps the stored
contact with the old address unchanged: the new address is never written. -/
theorem readd_keeps_old_address :
    addContact bStored cNewAddr = (bStored, true) ∧
    bStored.contacts = [{ id := 2 ^ 100, addr := 1 }] ∧
    cNewAddr.addr = 2 := by
  decide

/-- Claim C9: on the fresh table (all bucket slots nil), `remove` of the
absent contact with identifier 1 dereferences the nil bucket and panics
(`none`), while `ContactFromID` of the same identifier nil-checks and
returns not-found (`some none`). -/
theorem remove_on_nil_bucket_panics :
    remove rt0 { id := 1, addr := 0 } = none ∧
    ContactFromID rt0 1 = some none := by
  decide

/-- Claim C10: in every table state reachable through `add`/`remove`, every
allocated bucket's replacement cache (`lruCache`) is empty: no operation
ever writes to it. -/
theorem replacement_cache_always_empty
    (rt : RoutingTable) (h : Reachable rt) (i : Nat) (b : KBucket)
    (hb : rt.kBuckets[i]? = some (some b)) : b.lruCache = [] :=
  ((reachable_inv h).2 i b hb).2.1

/-- Witness for claim C10 at the reachable table `rtC4` and its bucket
100. -/
theorem replacement_cache_always_empty_witness : bC4.lruCache = [] :=
  replacement_cache_always_empty rtC4 reachable_rtC4 100 bC4 (by decide)

end Kademlia
